import Mathlib

/-!
Verification development for the `combarc` crate: a copy-on-write
reference-counted pointer (`CombArc<T>` over `Arc<T>`, `CombRc<T>` over
`Rc<T>`).

The heap of reference-counted allocations is modelled explicitly: a cell
holds the pointee (`none` once the value has been moved out or destroyed)
together with its strong and weak counts; a handle is the index of its
cell.  The operations of `alloc::sync::Arc` and `alloc::rc::Rc` that the
crate delegates to (`new`, `clone`, `try_unwrap`, `make_mut`,
`downgrade`, `upgrade`, drop) are embedded as state transformers on this
heap, following their documented library semantics; the `CombArc` /
`CombRc` layers are the crate's own (delegating) definitions from
`src/arc.rs` and `src/rc.rs`.
-/

/-- A reference-counted allocation: the pointee (`none` after the value
has been moved out or destroyed), the strong count and the weak count. -/
structure RcCell (T : Type) where
  value : Option T
  strong : Nat
  weak : Nat
  deriving DecidableEq, Repr

/-- The heap: a list of cells; a handle is an index into this list.
Fresh allocations are appended at the end, so an address is never
reused. -/
abbrev Heap (T : Type) : Type := List (RcCell T)

variable {T : Type}

/-- Strong count of the cell a handle refers to (0 for an invalid index). -/
def strongAt (h : Heap T) (i : Nat) : Nat :=
  ((h[i]?).map RcCell.strong).getD 0

/-- Weak count of the cell a handle refers to (0 for an invalid index). -/
def weakAt (h : Heap T) (i : Nat) : Nat :=
  ((h[i]?).map RcCell.weak).getD 0

/-- The pointee a handle refers to, if the cell exists and is live. -/
def valueAt (h : Heap T) (i : Nat) : Option T :=
  (h[i]?).bind RcCell.value

/-- A live owning handle: its cell exists, holds a value, and is counted. -/
def ValidHandle (h : Heap T) (i : Nat) : Prop :=
  1 ≤ strongAt h i ∧ (valueAt h i).isSome = true

namespace ArcSem

/-- Embeds `Arc::new`: allocate a fresh cell with `strong = 1`, `weak = 0`. -/
def new (h : Heap T) (v : T) : Heap T × Nat :=
  (h ++ [⟨some v, 1, 0⟩], h.length)

/-- Embeds `Arc::clone` (used by `CombArc`'s derived `Clone`): increment the
strong count, return a handle to the same cell. -/
def clone (h : Heap T) (i : Nat) : Heap T × Nat :=
  match h[i]? with
  | some c => (h.set i { c with strong := c.strong + 1 }, i)
  | none => (h, i)

/-- Embeds `Arc::try_unwrap`: if this is the only strong reference, move the
value out (the allocation stays behind, dead, for any weak handles);
otherwise return the untouched heap and the handle as the error. -/
def tryUnwrap (h : Heap T) (i : Nat) : Heap T × Except Nat T :=
  match h[i]? with
  | some c =>
    if c.strong = 1 then
      match c.value with
      | some v => (h.set i { c with strong := 0, value := none }, Except.ok v)
      | none => (h, Except.error i)
    else (h, Except.error i)
  | none => (h, Except.error i)

/-- Embeds `Arc::make_mut`: if other strong references exist, clone the value
into a fresh cell and decrement the old cell's strong count; if this is
the only strong reference but weak references exist, move the value into
a fresh cell, leaving the old allocation dead (the weaks are
disassociated); otherwise mutate in place.  Returns the (possibly new)
cell of the calling handle. -/
def makeMut (h : Heap T) (i : Nat) : Heap T × Nat :=
  match h[i]? with
  | some c =>
    match c.value with
    | some v =>
      if 1 < c.strong then
        ((h.set i { c with strong := c.strong - 1 }) ++ [⟨some v, 1, 0⟩], h.length)
      else if 0 < c.weak then
        ((h.set i { c with strong := 0, value := none }) ++ [⟨some v, 1, 0⟩], h.length)
      else (h, i)
    | none => (h, i)
  | none => (h, i)

/-- Dropping a strong handle: decrement the strong count; reaching 0
destroys the value. -/
def dropStrong (h : Heap T) (i : Nat) : Heap T :=
  match h[i]? with
  | some c =>
    if c.strong ≤ 1 then h.set i { c with strong := 0, value := none }
    else h.set i { c with strong := c.strong - 1 }
  | none => h

/-- Embeds `Arc::downgrade`: increment the weak count, return a weak handle to
the same cell. -/
def downgrade (h : Heap T) (i : Nat) : Heap T × Nat :=
  match h[i]? with
  | some c => (h.set i { c with weak := c.weak + 1 }, i)
  | none => (h, i)

/-- Embeds `Weak::upgrade`: succeeds, incrementing the strong count, exactly
when a strong reference still exists at call time. -/
def upgrade (h : Heap T) (i : Nat) : Heap T × Option Nat :=
  match h[i]? with
  | some c =>
    if 0 < c.strong then (h.set i { c with strong := c.strong + 1 }, some i)
    else (h, none)
  | none => (h, none)

/-- Interior mutation through a shared view (`Cell::set`): replaces the
pointee in place, touching no count and no address. -/
def interiorSet (h : Heap T) (i : Nat) (v : T) : Heap T :=
  match h[i]? with
  | some c =>
    match c.value with
    | some _ => h.set i { c with value := some v }
    | none => h
  | none => h

end ArcSem

namespace RcSem

/-- Embeds `Rc::new`: allocate a fresh cell with `strong = 1`, `weak = 0`. -/
def new (h : Heap T) (v : T) : Heap T × Nat :=
  (h ++ [⟨some v, 1, 0⟩], h.length)

/-- Embeds `Rc::clone` (used by `CombRc`'s derived `Clone`). -/
def clone (h : Heap T) (i : Nat) : Heap T × Nat :=
  match h[i]? with
  | some c => (h.set i { c with strong := c.strong + 1 }, i)
  | none => (h, i)

/-- Embeds `Rc::try_unwrap`: as `Arc::try_unwrap`, with plain counters. -/
def tryUnwrap (h : Heap T) (i : Nat) : Heap T × Except Nat T :=
  match h[i]? with
  | some c =>
    if c.strong = 1 then
      match c.value with
      | some v => (h.set i { c with strong := 0, value := none }, Except.ok v)
      | none => (h, Except.error i)
    else (h, Except.error i)
  | none => (h, Except.error i)

/-- Embeds `Rc::make_mut`: as `Arc::make_mut`, with plain counters. -/
def makeMut (h : Heap T) (i : Nat) : Heap T × Nat :=
  match h[i]? with
  | some c =>
    match c.value with
    | some v =>
      if 1 < c.strong then
        ((h.set i { c with strong := c.strong - 1 }) ++ [⟨some v, 1, 0⟩], h.length)
      else if 0 < c.weak then
        ((h.set i { c with strong := 0, value := none }) ++ [⟨some v, 1, 0⟩], h.length)
      else (h, i)
    | none => (h, i)
  | none => (h, i)

/-- Dropping a strong `Rc` handle. -/
def dropStrong (h : Heap T) (i : Nat) : Heap T :=
  match h[i]? with
  | some c =>
    if c.strong ≤ 1 then h.set i { c with strong := 0, value := none }
    else h.set i { c with strong := c.strong - 1 }
  | none => h

/-- Embeds `Rc::downgrade`. -/
def downgrade (h : Heap T) (i : Nat) : Heap T × Nat :=
  match h[i]? with
  | some c => (h.set i { c with weak := c.weak + 1 }, i)
  | none => (h, i)

/-- Embeds `rc::Weak::upgrade`. -/
def upgrade (h : Heap T) (i : Nat) : Heap T × Option Nat :=
  match h[i]? with
  | some c =>
    if 0 < c.strong then (h.set i { c with strong := c.strong + 1 }, some i)
    else (h, none)
  | none => (h, none)

/-- Interior mutation through a shared view (`Cell::set`). -/
def interiorSet (h : Heap T) (i : Nat) (v : T) : Heap T :=
  match h[i]? with
  | some c =>
    match c.value with
    | some _ => h.set i { c with value := some v }
    | none => h
  | none => h

end RcSem

namespace CombArc

/-- Embeds `CombArc::new`: wraps `Arc::new(what)`. -/
def new (h : Heap T) (v : T) : Heap T × Nat := ArcSem.new h v

/-- Embeds `CombArc::from_arc`: adopts an existing `Arc` without touching any
count. -/
def fromArc (h : Heap T) (i : Nat) : Heap T × Nat := (h, i)

/-- Embeds `CombArc`'s derived `Clone`: clones the inner `Arc`. -/
def clone (h : Heap T) (i : Nat) : Heap T × Nat := ArcSem.clone h i

/-- Embeds `CombArc::clone_unique`: `Self::new(what.inner.as_ref().clone())` —
unconditionally clones the pointee into a brand-new cell. -/
def cloneUnique (h : Heap T) (i : Nat) : Heap T × Nat :=
  match valueAt h i with
  | some v => new h v
  | none => (h, i)

/-- Embeds `CombArc::try_unwrap`: `Arc::try_unwrap(what.inner).map_err(Self::from_arc)`. -/
def tryUnwrap (h : Heap T) (i : Nat) : Heap T × Except Nat T :=
  ArcSem.tryUnwrap h i

/-- Embeds `CombArc::make_inner`:
`Arc::try_unwrap(what.inner).unwrap_or_else(|e| T::to_owned(e.as_ref()))`.
On the error branch the pointee is cloned out of the still-shared cell
and the consumed handle `e` is then dropped. -/
def makeInner (h : Heap T) (i : Nat) : Heap T × Option T :=
  match ArcSem.tryUnwrap h i with
  | (h2, Except.ok v) => (h2, some v)
  | (h2, Except.error j) =>
    match valueAt h2 j with
    | some v => (ArcSem.dropStrong h2 j, some v)
    | none => (h2, none)

/-- Embeds `CombArc::get_arc`: exposes the inner `Arc` without touching any
count. -/
def getArc (h : Heap T) (i : Nat) : Nat := i

/-- Embeds `CombArc`'s `Deref`: `self.inner.as_ref()` — a read view of the
pointee. -/
def derefRead (h : Heap T) (i : Nat) : Option T := valueAt h i

/-- Embeds `CombArc`'s `DerefMut`: `Arc::make_mut(&mut self.inner)` — returns
the cell the handle is bound to afterwards. -/
def derefMut (h : Heap T) (i : Nat) : Heap T × Nat := ArcSem.makeMut h i

/-- Embeds `CombArc`'s derived `PartialEq`/`Eq`: compares the inner `Arc`s,
which compare their pointees (deep comparison). -/
def eqHandles [DecidableEq T] (h : Heap T) (i j : Nat) : Bool :=
  match valueAt h i, valueAt h j with
  | some a, some b => decide (a = b)
  | _, _ => false

/-- Embeds `impl PartialEq<T> for CombArc<T>`: `Arc::as_ref(&self.inner) == other`. -/
def eqValue [DecidableEq T] (h : Heap T) (i : Nat) (v : T) : Bool :=
  match valueAt h i with
  | some a => decide (a = v)
  | none => false

/-- Embeds `CombArc`'s derived `Ord`/`PartialOrd`: compares the pointees. -/
def cmpHandles [Ord T] (h : Heap T) (i j : Nat) : Option Ordering :=
  match valueAt h i, valueAt h j with
  | some a, some b => some (compare a b)
  | _, _ => none

/-- Embeds `impl PartialOrd<T> for CombArc<T>`:
`Arc::as_ref(&self.inner).partial_cmp(other)`. -/
def cmpValue [Ord T] (h : Heap T) (i : Nat) (v : T) : Option Ordering :=
  match valueAt h i with
  | some a => some (compare a v)
  | none => none

/-- Embeds `CombArc`'s `Display`: renders the pointee
(`Arc::as_ref(&self.inner).fmt(f)`). -/
def render (f : T → String) (h : Heap T) (i : Nat) : Option String :=
  (valueAt h i).map f

/-- Embeds `CombArc`'s derived `Default`: `CombArc { inner: Arc::default() }`,
and `Arc::default()` is `Arc::new(T::default())`; `dflt` stands for the
pointee type's `Default::default()` value. -/
def defaultHandle (h : Heap T) (dflt : T) : Heap T × Nat := new h dflt

end CombArc

namespace CombRc

/-- Embeds `CombRc::new`: wraps `Rc::new(what)`. -/
def new (h : Heap T) (v : T) : Heap T × Nat := RcSem.new h v

/-- Embeds `CombRc::from_rc`: adopts an existing `Rc` without touching any
count. -/
def fromRc (h : Heap T) (i : Nat) : Heap T × Nat := (h, i)

/-- Embeds `CombRc`'s derived `Clone`: clones the inner `Rc`. -/
def clone (h : Heap T) (i : Nat) : Heap T × Nat := RcSem.clone h i

/-- Embeds `CombRc::clone_unique`. -/
def cloneUnique (h : Heap T) (i : Nat) : Heap T × Nat :=
  match valueAt h i with
  | some v => new h v
  | none => (h, i)

/-- Embeds `CombRc::try_unwrap`: `Rc::try_unwrap(what.inner).map_err(Self::from_rc)`. -/
def tryUnwrap (h : Heap T) (i : Nat) : Heap T × Except Nat T :=
  RcSem.tryUnwrap h i

/-- Embeds `CombRc::make_inner`. -/
def makeInner (h : Heap T) (i : Nat) : Heap T × Option T :=
  match RcSem.tryUnwrap h i with
  | (h2, Except.ok v) => (h2, some v)
  | (h2, Except.error j) =>
    match valueAt h2 j with
    | some v => (RcSem.dropStrong h2 j, some v)
    | none => (h2, none)

/-- Embeds `CombRc::get_rc`. -/
def getRc (h : Heap T) (i : Nat) : Nat := i

/-- Embeds `CombRc`'s `Deref`. -/
def derefRead (h : Heap T) (i : Nat) : Option T := valueAt h i

/-- Embeds `CombRc`'s `DerefMut`: `Rc::make_mut(&mut self.inner)`. -/
def derefMut (h : Heap T) (i : Nat) : Heap T × Nat := RcSem.makeMut h i

/-- Embeds `CombRc`'s derived `PartialEq`/`Eq`. -/
def eqHandles [DecidableEq T] (h : Heap T) (i j : Nat) : Bool :=
  match valueAt h i, valueAt h j with
  | some a, some b => decide (a = b)
  | _, _ => false

/-- Embeds `impl PartialEq<T> for CombRc<T>`. -/
def eqValue [DecidableEq T] (h : Heap T) (i : Nat) (v : T) : Bool :=
  match valueAt h i with
  | some a => decide (a = v)
  | none => false

/-- Embeds `CombRc`'s derived `Ord`/`PartialOrd`. -/
def cmpHandles [Ord T] (h : Heap T) (i j : Nat) : Option Ordering :=
  match valueAt h i, valueAt h j with
  | some a, some b => some (compare a b)
  | _, _ => none

/-- Embeds `impl PartialOrd<T> for CombRc<T>`. -/
def cmpValue [Ord T] (h : Heap T) (i : Nat) (v : T) : Option Ordering :=
  match valueAt h i with
  | some a => some (compare a v)
  | none => none

/-- Embeds `CombRc`'s `Display`. -/
def render (f : T → String) (h : Heap T) (i : Nat) : Option String :=
  (valueAt h i).map f

/-- Embeds `CombRc`'s derived `Default`. -/
def defaultHandle (h : Heap T) (dflt : T) : Heap T × Nat := new h dflt

end CombRc

/-- The operations a caller can invoke through one handle (the crate's
whole per-handle surface).  `opSet` is interior mutation the pointee
itself permits through a shared view; `opRead` is `Deref`. -/
inductive HOp (T : Type) where
  | opClone
  | opCloneUnique
  | opTryUnwrap
  | opMakeInner
  | opDowngrade
  | opUpgrade
  | opRead
  | opSet (v : T)
  | opDerefMut
  | opDrop
  deriving DecidableEq

/-- Apply one operation through the handle at cell `i`; the second
component is the cell the calling handle is bound to afterwards (for the
consuming operations it is the cell the handle last referred to). -/
def applyOp (h : Heap T) (i : Nat) : HOp T → Heap T × Nat
  | HOp.opClone => ((ArcSem.clone h i).1, i)
  | HOp.opCloneUnique => ((CombArc.cloneUnique h i).1, i)
  | HOp.opTryUnwrap => ((CombArc.tryUnwrap h i).1, i)
  | HOp.opMakeInner => ((CombArc.makeInner h i).1, i)
  | HOp.opDowngrade => ((ArcSem.downgrade h i).1, i)
  | HOp.opUpgrade => ((ArcSem.upgrade h i).1, i)
  | HOp.opRead => (h, i)
  | HOp.opSet v => (ArcSem.interiorSet h i v, i)
  | HOp.opDerefMut => CombArc.derefMut h i
  | HOp.opDrop => (ArcSem.dropStrong h i, i)

/-- Run a sequence of operations, each through the handle at the given
cell. -/
def runOps (h : Heap T) : List (Nat × HOp T) → Heap T
  | [] => h
  | (j, o) :: rest => runOps (applyOp h j o).1 rest

/-- A one-cell heap whose sole owning handle (cell 0) has been
downgraded once: `strong = 1`, `weak = 1`. -/
def soleOwnerOneWeak : Heap Bool :=
  (ArcSem.downgrade (ArcSem.new ([] : Heap Bool) true).1 0).1

example : soleOwnerOneWeak = [⟨some true, 1, 1⟩] := rfl

example : ArcSem.new ([] : Heap Bool) true = ([⟨some true, 1, 0⟩], 0) := rfl
example : ArcSem.tryUnwrap [(⟨some true, 1, 1⟩ : RcCell Bool)] 0 =
    ([⟨none, 0, 1⟩], Except.ok true) := rfl
example : ArcSem.makeMut [(⟨some true, 1, 1⟩ : RcCell Bool)] 0 =
    ([⟨none, 0, 1⟩, ⟨some true, 1, 0⟩], 1) := rfl
example : ArcSem.makeMut [(⟨some true, 2, 0⟩ : RcCell Bool)] 0 =
    ([⟨some true, 1, 0⟩, ⟨some true, 1, 0⟩], 1) := rfl

lemma strongAt_congr {h h2 : Heap T} {i : Nat} (he : h2[i]? = h[i]?) :
    strongAt h2 i = strongAt h i := by
  unfold strongAt; rw [he]

lemma valueAt_congr {h h2 : Heap T} {i : Nat} (he : h2[i]? = h[i]?) :
    valueAt h2 i = valueAt h i := by
  unfold valueAt; rw [he]

lemma clone_frame (h : Heap T) (i j : Nat) (hne : j ≠ i) :
    ((ArcSem.clone h j).1)[i]? = h[i]? := by
  unfold ArcSem.clone
  cases hc : h[j]? <;> simp [List.getElem?_set_ne hne]

lemma tryUnwrap_frame (h : Heap T) (i j : Nat) (hne : j ≠ i) :
    ((ArcSem.tryUnwrap h j).1)[i]? = h[i]? := by
  unfold ArcSem.tryUnwrap
  cases hc : h[j]? with
  | none => rfl
  | some c =>
    by_cases h1 : c.strong = 1
    · cases hv : c.value <;> simp [h1, hv, List.getElem?_set_ne hne]
    · simp [h1]

lemma dropStrong_frame (h : Heap T) (i j : Nat) (hne : j ≠ i) :
    (ArcSem.dropStrong h j)[i]? = h[i]? := by
  unfold ArcSem.dropStrong
  cases hc : h[j]? with
  | none => rfl
  | some c =>
    by_cases hs : c.strong ≤ 1 <;> simp [hs, List.getElem?_set_ne hne]

lemma downgrade_frame (h : Heap T) (i j : Nat) (hne : j ≠ i) :
    ((ArcSem.downgrade h j).1)[i]? = h[i]? := by
  unfold ArcSem.downgrade
  cases hc : h[j]? <;> simp [List.getElem?_set_ne hne]

lemma upgrade_frame (h : Heap T) (i j : Nat) (hne : j ≠ i) :
    ((ArcSem.upgrade h j).1)[i]? = h[i]? := by
  unfold ArcSem.upgrade
  cases hc : h[j]? with
  | none => rfl
  | some c =>
    by_cases hs : 0 < c.strong <;> simp [hs, List.getElem?_set_ne hne]

lemma interiorSet_frame (h : Heap T) (i j : Nat) (v : T) (hne : j ≠ i) :
    (ArcSem.interiorSet h j v)[i]? = h[i]? := by
  unfold ArcSem.interiorSet
  cases hc : h[j]? with
  | none => rfl
  | some c => cases hv : c.value <;> simp [hv, List.getElem?_set_ne hne]

lemma cloneUnique_frame (h : Heap T) (i j : Nat) (hlt : i < h.length) :
    ((CombArc.cloneUnique h j).1)[i]? = h[i]? := by
  unfold CombArc.cloneUnique CombArc.new ArcSem.new
  cases hv : valueAt h j <;> simp [hv, List.getElem?_append_left, hlt]

lemma makeMut_frame (h : Heap T) (i j : Nat) (hne : j ≠ i) (hlt : i < h.length) :
    ((ArcSem.makeMut h j).1)[i]? = h[i]? := by
  unfold ArcSem.makeMut
  cases hc : h[j]? with
  | none => rfl
  | some c =>
    cases hv : c.value with
    | none => simp [hv]
    | some v =>
      by_cases h1 : 1 < c.strong
      · simp [hv, h1, List.getElem?_append_left, List.length_set, hlt,
          List.getElem?_set_ne hne]
      · by_cases h2 : 0 < c.weak
        · simp [hv, h1, h2, List.getElem?_append_left, List.length_set, hlt,
            List.getElem?_set_ne hne]
        · simp [hv, h1, h2]

lemma makeInner_frame (h : Heap T) (i j : Nat) (hne : j ≠ i) :
    ((CombArc.makeInner h j).1)[i]? = h[i]? := by
  unfold CombArc.makeInner ArcSem.tryUnwrap
  cases hc : h[j]? with
  | none => simp [valueAt, hc]
  | some c =>
    by_cases h1 : c.strong = 1
    · cases hv : c.value with
      | some v => simp [h1, hv, List.getElem?_set_ne hne]
      | none => simp [h1, hv, valueAt, hc]
    · cases hv : c.value with
      | some v =>
        simp only [h1, ite_false, valueAt, hc, Option.some_bind, hv]
        exact dropStrong_frame h i j hne
      | none => simp [h1, hv, valueAt, hc]

lemma applyOp_frame (h : Heap T) (i j : Nat) (o : HOp T) (hne : j ≠ i)
    (hlt : i < h.length) : ((applyOp h j o).1)[i]? = h[i]? := by
  cases o with
  | opClone => exact clone_frame h i j hne
  | opCloneUnique => exact cloneUnique_frame h i j hlt
  | opTryUnwrap => exact tryUnwrap_frame h i j hne
  | opMakeInner => exact makeInner_frame h i j hne
  | opDowngrade => exact downgrade_frame h i j hne
  | opUpgrade => exact upgrade_frame h i j hne
  | opRead => rfl
  | opSet v => exact interiorSet_frame h i j v hne
  | opDerefMut => exact makeMut_frame h i j hne hlt
  | opDrop => exact dropStrong_frame h i j hne

lemma length_le_applyOp (h : Heap T) (j : Nat) (o : HOp T) :
    h.length ≤ (applyOp h j o).1.length := by
  cases o with
  | opClone =>
    unfold applyOp ArcSem.clone
    cases hc : h[j]? <;> simp
  | opCloneUnique =>
    unfold applyOp CombArc.cloneUnique CombArc.new ArcSem.new
    cases hv : valueAt h j <;> simp [hv]
  | opTryUnwrap =>
    unfold applyOp CombArc.tryUnwrap ArcSem.tryUnwrap
    cases hc : h[j]? with
    | none => simp
    | some c =>
      by_cases h1 : c.strong = 1
      · cases hv : c.value <;> simp [h1, hv]
      · simp [h1]
  | opMakeInner =>
    unfold applyOp CombArc.makeInner ArcSem.tryUnwrap
    cases hc : h[j]? with
    | none => simp [valueAt, hc]
    | some c =>
      by_cases h1 : c.strong = 1
      · cases hv : c.value with
        | some v => simp [h1, hv]
        | none => simp [h1, hv, valueAt, hc]
      · cases hv : c.value with
        | some v =>
          simp only [h1, ite_false, valueAt, hc, Option.some_bind, hv]
          unfold ArcSem.dropStrong
          rw [hc]
          by_cases hs : c.strong ≤ 1 <;> simp [hs, hv]
        | none => simp [h1, hv, valueAt, hc]
  | opDowngrade =>
    unfold applyOp ArcSem.downgrade
    cases hc : h[j]? <;> simp
  | opUpgrade =>
    unfold applyOp ArcSem.upgrade
    cases hc : h[j]? with
    | none => simp
    | some c => by_cases hs : 0 < c.strong <;> simp [hs]
  | opRead => exact le_refl _
  | opSet v =>
    unfold applyOp ArcSem.interiorSet
    cases hc : h[j]? with
    | none => simp
    | some c => cases hv : c.value <;> simp [hv]
  | opDerefMut =>
    unfold applyOp CombArc.derefMut ArcSem.makeMut
    cases hc : h[j]? with
    | none => simp
    | some c =>
      cases hv : c.value with
      | none => simp [hv]
      | some v =>
        by_cases h1 : 1 < c.strong
        · simp [hv, h1]
        · by_cases h2 : 0 < c.weak <;> simp [hv, h1, h2]
  | opDrop =>
    unfold applyOp ArcSem.dropStrong
    cases hc : h[j]? with
    | none => simp
    | some c => by_cases hs : c.strong ≤ 1 <;> simp [hs]

lemma weakAt_congr {h h2 : Heap T} {i : Nat} (he : h2[i]? = h[i]?) :
    weakAt h2 i = weakAt h i := by
  unfold weakAt; rw [he]

lemma upgrade_dead (h : Heap T) (i : Nat) (hs : strongAt h i = 0) :
    ArcSem.upgrade h i = (h, none) := by
  unfold ArcSem.upgrade
  cases hc : h[i]? with
  | none => rfl
  | some c =>
    have hcs : c.strong = 0 := by unfold strongAt at hs; rw [hc] at hs; simpa using hs
    simp [hcs]

lemma applyOp_dead (h : Heap T) (i : Nat) (hlt : i < h.length)
    (hs : strongAt h i = 0) (j : Nat) (o : HOp T)
    (hcond : j = i → o = HOp.opUpgrade) :
    i < (applyOp h j o).1.length ∧ strongAt (applyOp h j o).1 i = 0 := by
  by_cases hji : j = i
  · subst hji
    rw [hcond rfl]
    simp [applyOp, upgrade_dead h j hs, hlt, hs]
  · have hframe := applyOp_frame h i j o hji hlt
    refine ⟨lt_of_lt_of_le hlt (length_le_applyOp h j o), ?_⟩
    rw [strongAt_congr hframe]; exact hs

lemma runOps_dead (ops : List (Nat × HOp T)) (h : Heap T) (i : Nat)
    (hlt : i < h.length) (hs : strongAt h i = 0)
    (hcond : ∀ p ∈ ops, p.1 = i → p.2 = HOp.opUpgrade) :
    strongAt (runOps h ops) i = 0 := by
  induction ops generalizing h with
  | nil => exact hs
  | cons p rest ih =>
    obtain ⟨j, o⟩ := p
    simp only [runOps]
    have hd := applyOp_dead h i hlt hs j o
      (fun hj => hcond (j, o) (List.mem_cons_self _ _) hj)
    exact ih (applyOp h j o).1 hd.1 hd.2
      (fun q hq hq1 => hcond q (List.mem_cons_of_mem _ hq) hq1)

lemma applyOp_keeps_index (h : Heap T) (i : Nat) (o : HOp T)
    (ho : o ≠ HOp.opDerefMut) : (applyOp h i o).2 = i := by
  cases o <;> first | rfl | exact absurd rfl ho

/-- A one-cell heap holding `true` with a sole owning handle at cell 0:
`strong = 1`, `weak = 0`. -/
def oneCellHeap : Heap Bool := (ArcSem.new ([] : Heap Bool) true).1

/-- The heap `oneCellHeap` after cloning the handle: `strong = 2`, `weak = 0`. -/
def sharedPairHeap : Heap Bool := (ArcSem.clone oneCellHeap 0).1

example : oneCellHeap = [⟨some true, 1, 0⟩] := rfl
example : sharedPairHeap = [⟨some true, 2, 0⟩] := rfl

lemma valueAt_elim {h : Heap T} {i : Nat} {v : T} (hv : valueAt h i = some v) :
    ∃ c, h[i]? = some c ∧ c.value = some v := by
  unfold valueAt at hv
  cases hc : h[i]? with
  | none => rw [hc] at hv; simp at hv
  | some c => rw [hc] at hv; exact ⟨c, rfl, by simpa using hv⟩

lemma strongAt_some {h : Heap T} {i : Nat} {c : RcCell T} (hc : h[i]? = some c) :
    strongAt h i = c.strong := by
  unfold strongAt; rw [hc]; rfl

lemma weakAt_some {h : Heap T} {i : Nat} {c : RcCell T} (hc : h[i]? = some c) :
    weakAt h i = c.weak := by
  unfold weakAt; rw [hc]; rfl

/-- C1 (counterexample to the claim as stated): on a cell with
`strong_count = 1` and `weak_count = 1`, `try_unwrap` succeeds and moves
the value out — a live weak (observing) handle alone does not make it
fail. -/
theorem tryUnwrap_succeeds_despite_weak_cex :
    strongAt soleOwnerOneWeak 0 = 1 ∧ weakAt soleOwnerOneWeak 0 = 1 ∧
    (CombArc.tryUnwrap soleOwnerOneWeak 0).2 = Except.ok true :=
  ⟨rfl, rfl, rfl⟩

/-- C1 (amended): `try_unwrap` succeeds, returning the inner value, iff
the cell's `strong_count == 1` at call time; the weak count is not
consulted, so live observing handles never block the move. -/
theorem tryUnwrap_ok_iff_strong_one (h : Heap T) (i : Nat) (v : T)
    (hv : valueAt h i = some v) :
    (CombArc.tryUnwrap h i).2 = Except.ok v ↔ strongAt h i = 1 := by
  obtain ⟨c, hc, hcv⟩ := valueAt_elim hv
  unfold CombArc.tryUnwrap ArcSem.tryUnwrap
  rw [hc, strongAt_some hc]
  by_cases h1 : c.strong = 1
  · simp [h1, hcv]
  · simp [h1]

/-- Witness for the amended C1 theorem at a concrete one-cell heap. -/
theorem tryUnwrap_ok_iff_strong_one_w :
    ((CombArc.tryUnwrap soleOwnerOneWeak 0).2 = Except.ok true ↔
      strongAt soleOwnerOneWeak 0 = 1) :=
  tryUnwrap_ok_iff_strong_one soleOwnerOneWeak 0 true rfl

/-- C6: whenever `try_unwrap` fails, the failure payload is the original
handle (same cell), and the heap — every cell's value, strong count and
weak count, hence every other handle — is exactly as it was at call
time. -/
theorem tryUnwrap_error_loses_nothing (h : Heap T) (i j : Nat)
    (he : (CombArc.tryUnwrap h i).2 = Except.error j) :
    j = i ∧ CombArc.tryUnwrap h i = (h, Except.error i) := by
  unfold CombArc.tryUnwrap ArcSem.tryUnwrap at he ⊢
  cases hc : h[i]? with
  | none =>
    rw [hc] at he
    have : i = j := by simpa using he
    exact ⟨this.symm, rfl⟩
  | some c =>
    rw [hc] at he
    by_cases h1 : c.strong = 1
    · cases hv : c.value with
      | some v => simp [h1, hv] at he
      | none =>
        simp only [h1, if_true, hv] at he
        have : i = j := by simpa using he
        exact ⟨this.symm, by simp [h1, hv]⟩
    · simp only [h1, if_false] at he
      have : i = j := by simpa using he
      exact ⟨this.symm, by simp [h1]⟩

/-- Witness for C6 at a concrete heap with `strong_count = 2`. -/
theorem tryUnwrap_error_loses_nothing_w :
    (0 = 0 ∧ CombArc.tryUnwrap sharedPairHeap 0 = (sharedPairHeap, Except.error 0)) :=
  tryUnwrap_error_loses_nothing sharedPairHeap 0 0 rfl

/-- C5: `make_inner` always succeeds, returning a value equal to the
pointee the handle referred to at call time — moved out when the handle
was the sole strong owner, cloned from the still-shared cell
otherwise. -/
theorem makeInner_returns_pointee (h : Heap T) (i : Nat) (v : T)
    (hv : valueAt h i = some v) :
    (CombArc.makeInner h i).2 = some v := by
  obtain ⟨c, hc, hcv⟩ := valueAt_elim hv
  unfold CombArc.makeInner ArcSem.tryUnwrap
  rw [hc]
  by_cases h1 : c.strong = 1
  · simp [h1, hcv]
  · simp [h1, valueAt, hc, hcv]

/-- Witness for C5 at a concrete heap with `strong_count = 2`. -/
theorem makeInner_returns_pointee_w :
    (CombArc.makeInner sharedPairHeap 0).2 = some true :=
  makeInner_returns_pointee sharedPairHeap 0 true rfl

/-- C2 (counterexample to the claim as stated): on a cell with
`strong_count = 1` but `weak_count = 1`, `deref_mut` (via `make_mut`)
moves the value to a fresh cell, so the handle's address changes even
though the handle is the sole strong owner. -/
theorem derefMut_sole_owner_address_changes_cex :
    strongAt soleOwnerOneWeak 0 = 1 ∧ weakAt soleOwnerOneWeak 0 = 1 ∧
    (CombArc.derefMut soleOwnerOneWeak 0).2 ≠ 0 :=
  ⟨rfl, rfl, by decide⟩

/-- C2 (amended): on a handle whose cell has `strong_count == 1`,
`deref_mut` gives a mutable view without duplicating the value: if
`weak_count == 0` it is a direct view into the existing cell with
nothing changed; if `weak_count > 0` the value is moved (not cloned)
into a fresh cell — the address changes and the weak handles are left
behind on the dead old cell.  After the first call, repeated `deref_mut`
calls on the sole handle never change its address again. -/
theorem derefMut_unique_no_clone (h : Heap T) (i : Nat) (v : T)
    (hv : valueAt h i = some v) (hs : strongAt h i = 1) :
    (weakAt h i = 0 → CombArc.derefMut h i = (h, i)) ∧
    (0 < weakAt h i →
      (CombArc.derefMut h i).2 = h.length ∧
      (CombArc.derefMut h i).2 ≠ i ∧
      valueAt (CombArc.derefMut h i).1 (CombArc.derefMut h i).2 = some v ∧
      strongAt (CombArc.derefMut h i).1 (CombArc.derefMut h i).2 = 1 ∧
      weakAt (CombArc.derefMut h i).1 (CombArc.derefMut h i).2 = 0 ∧
      valueAt (CombArc.derefMut h i).1 i = none ∧
      weakAt (CombArc.derefMut h i).1 i = weakAt h i) ∧
    CombArc.derefMut (CombArc.derefMut h i).1 (CombArc.derefMut h i).2 =
      ((CombArc.derefMut h i).1, (CombArc.derefMut h i).2) := by
  obtain ⟨c, hc, hcv⟩ := valueAt_elim hv
  have hilt : i < h.length := (List.getElem?_eq_some.mp hc).1
  have hcs : c.strong = 1 := by rw [strongAt_some hc] at hs; exact hs
  have hwk : weakAt h i = c.weak := weakAt_some hc
  by_cases hwz : c.weak = 0
  · have heq : CombArc.derefMut h i = (h, i) := by
      unfold CombArc.derefMut ArcSem.makeMut
      rw [hc]
      simp [hcv, hcs, hwz]
    refine ⟨fun _ => heq, fun hpos => ?_, ?_⟩
    · rw [hwk, hwz] at hpos; exact absurd hpos (lt_irrefl 0)
    · rw [heq]; exact heq
  · have hwpos : 0 < c.weak := Nat.pos_of_ne_zero hwz
    have heq : CombArc.derefMut h i =
        ((h.set i ⟨none, 0, c.weak⟩) ++ [⟨some v, 1, 0⟩], h.length) := by
      unfold CombArc.derefMut ArcSem.makeMut
      rw [hc]
      simp [hcv, hcs, hwpos]
    have hlen : (h.set i (⟨none, 0, c.weak⟩ : RcCell T)).length = h.length := by
      simp
    have hget : ((h.set i ⟨none, 0, c.weak⟩) ++ [⟨some v, 1, 0⟩])[h.length]? =
        some ⟨some v, 1, 0⟩ := by
      rw [← hlen]; exact List.getElem?_concat_length _ _
    have hgeti : ((h.set i ⟨none, 0, c.weak⟩) ++ [⟨some v, 1, 0⟩])[i]? =
        some ⟨none, 0, c.weak⟩ := by
      rw [List.getElem?_append_left (by simpa using hilt)]
      exact List.getElem?_set_eq_of_lt _ hilt
    refine ⟨fun hzero => ?_, fun _ => ?_, ?_⟩
    · rw [hwk] at hzero; exact absurd hzero hwz
    · refine ⟨by rw [heq], ?_, ?_, ?_, ?_, ?_, ?_⟩
      · rw [heq]; exact Nat.ne_of_gt hilt
      · rw [heq]; unfold valueAt; rw [hget]; rfl
      · rw [heq]; exact strongAt_some hget
      · rw [heq]; exact weakAt_some hget
      · rw [heq]; unfold valueAt; rw [hgeti]; rfl
      · rw [heq, hwk]
        show weakAt ((h.set i ⟨none, 0, c.weak⟩) ++ [⟨some v, 1, 0⟩]) i = c.weak
        rw [weakAt_some hgeti]
    · rw [heq]
      unfold CombArc.derefMut ArcSem.makeMut
      rw [hget]
      simp

/-- Witness for the amended C2 theorem at a concrete heap with
`strong = 1`, `weak = 1`. -/
theorem derefMut_unique_no_clone_w :
    (weakAt soleOwnerOneWeak 0 = 0 → CombArc.derefMut soleOwnerOneWeak 0 = (soleOwnerOneWeak, 0)) ∧
    (0 < weakAt soleOwnerOneWeak 0 →
      (CombArc.derefMut soleOwnerOneWeak 0).2 = soleOwnerOneWeak.length ∧
      (CombArc.derefMut soleOwnerOneWeak 0).2 ≠ 0 ∧
      valueAt (CombArc.derefMut soleOwnerOneWeak 0).1 (CombArc.derefMut soleOwnerOneWeak 0).2 = some true ∧
      strongAt (CombArc.derefMut soleOwnerOneWeak 0).1 (CombArc.derefMut soleOwnerOneWeak 0).2 = 1 ∧
      weakAt (CombArc.derefMut soleOwnerOneWeak 0).1 (CombArc.derefMut soleOwnerOneWeak 0).2 = 0 ∧
      valueAt (CombArc.derefMut soleOwnerOneWeak 0).1 0 = none ∧
      weakAt (CombArc.derefMut soleOwnerOneWeak 0).1 0 = weakAt soleOwnerOneWeak 0) ∧
    CombArc.derefMut (CombArc.derefMut soleOwnerOneWeak 0).1 (CombArc.derefMut soleOwnerOneWeak 0).2 =
      ((CombArc.derefMut soleOwnerOneWeak 0).1, (CombArc.derefMut soleOwnerOneWeak 0).2) :=
  derefMut_unique_no_clone soleOwnerOneWeak 0 true rfl rfl

/-- C3: `deref_mut` on a shared handle (`strong_count > 1`) duplicates
the pointee into a fresh cell with `strong = 1`, `weak = 0`, rebinds the
calling handle there (its address changes), decrements the old cell's
strong count, and leaves every other cell — hence every other aliasing
handle — untouched; and `deref_mut` is the only per-handle operation
that rebinds the calling handle to a different cell. -/
theorem derefMut_shared_diverges (h : Heap T) (i : Nat) (v : T)
    (hv : valueAt h i = some v) (hs : 1 < strongAt h i) :
    (CombArc.derefMut h i).2 = h.length ∧
    (CombArc.derefMut h i).2 ≠ i ∧
    valueAt (CombArc.derefMut h i).1 (CombArc.derefMut h i).2 = some v ∧
    strongAt (CombArc.derefMut h i).1 (CombArc.derefMut h i).2 = 1 ∧
    weakAt (CombArc.derefMut h i).1 (CombArc.derefMut h i).2 = 0 ∧
    strongAt (CombArc.derefMut h i).1 i = strongAt h i - 1 ∧
    valueAt (CombArc.derefMut h i).1 i = some v ∧
    weakAt (CombArc.derefMut h i).1 i = weakAt h i ∧
    (∀ k, k < h.length → k ≠ i → ((CombArc.derefMut h i).1)[k]? = h[k]?) ∧
    (∀ (g : Heap T) (m : Nat) (o : HOp T), o ≠ HOp.opDerefMut →
      (applyOp g m o).2 = m) := by
  obtain ⟨c, hc, hcv⟩ := valueAt_elim hv
  have hilt : i < h.length := (List.getElem?_eq_some.mp hc).1
  have hcs : 1 < c.strong := by rw [strongAt_some hc] at hs; exact hs
  have heq : CombArc.derefMut h i =
      ((h.set i { c with strong := c.strong - 1 }) ++ [⟨some v, 1, 0⟩], h.length) := by
    unfold CombArc.derefMut ArcSem.makeMut
    rw [hc]
    simp [hcv, hcs]
  have hlen : (h.set i { c with strong := c.strong - 1 }).length = h.length := by
    simp
  have hget : ((h.set i { c with strong := c.strong - 1 }) ++ [⟨some v, 1, 0⟩])[h.length]? =
      some ⟨some v, 1, 0⟩ := by
    rw [← hlen]; exact List.getElem?_concat_length _ _
  have hgeti : ((h.set i { c with strong := c.strong - 1 }) ++ [⟨some v, 1, 0⟩])[i]? =
      some { c with strong := c.strong - 1 } := by
    rw [List.getElem?_append_left (by simpa using hilt)]
    exact List.getElem?_set_eq_of_lt _ hilt
  refine ⟨by rw [heq], ?_, ?_, ?_, ?_, ?_, ?_, ?_, ?_, ?_⟩
  · rw [heq]; exact Nat.ne_of_gt hilt
  · rw [heq]; unfold valueAt; rw [hget]; rfl
  · rw [heq]; exact strongAt_some hget
  · rw [heq]; exact weakAt_some hget
  · rw [heq, strongAt_some hc, strongAt_some hgeti]
  · rw [heq]; unfold valueAt; rw [hgeti]; simpa using hcv
  · rw [heq, weakAt_some hc, weakAt_some hgeti]
  · intro k hk hki
    rw [heq]
    show ((h.set i { c with strong := c.strong - 1 }) ++ [⟨some v, 1, 0⟩])[k]? = h[k]?
    rw [List.getElem?_append_left (by simpa using hk)]
    exact List.getElem?_set_ne (Ne.symm hki)
  · intro g m o ho
    exact applyOp_keeps_index g m o ho

/-- Witness for C3 at a concrete heap with `strong_count = 2`. -/
theorem derefMut_shared_diverges_w :
    (CombArc.derefMut sharedPairHeap 0).2 = sharedPairHeap.length ∧
    (CombArc.derefMut sharedPairHeap 0).2 ≠ 0 ∧
    valueAt (CombArc.derefMut sharedPairHeap 0).1 (CombArc.derefMut sharedPairHeap 0).2 = some true ∧
    strongAt (CombArc.derefMut sharedPairHeap 0).1 (CombArc.derefMut sharedPairHeap 0).2 = 1 ∧
    weakAt (CombArc.derefMut sharedPairHeap 0).1 (CombArc.derefMut sharedPairHeap 0).2 = 0 ∧
    strongAt (CombArc.derefMut sharedPairHeap 0).1 0 = strongAt sharedPairHeap 0 - 1 ∧
    valueAt (CombArc.derefMut sharedPairHeap 0).1 0 = some true ∧
    weakAt (CombArc.derefMut sharedPairHeap 0).1 0 = weakAt sharedPairHeap 0 ∧
    (∀ k, k < sharedPairHeap.length → k ≠ 0 → ((CombArc.derefMut sharedPairHeap 0).1)[k]? = sharedPairHeap[k]?) ∧
    (∀ (g : Heap Bool) (m : Nat) (o : HOp Bool), o ≠ HOp.opDerefMut →
      (applyOp g m o).2 = m) :=
  derefMut_shared_diverges sharedPairHeap 0 true rfl (by decide)

/-- C4: `clone` never fails, allocates no new cell, increments the
cell's strong count by one, and yields a handle to the same cell — so
clone and original have identical addresses and compare equal. -/
theorem clone_aliases_same_cell [DecidableEq T] (h : Heap T) (i : Nat) (v : T)
    (hv : valueAt h i = some v) :
    (CombArc.clone h i).2 = i ∧
    (CombArc.clone h i).1.length = h.length ∧
    strongAt (CombArc.clone h i).1 i = strongAt h i + 1 ∧
    weakAt (CombArc.clone h i).1 i = weakAt h i ∧
    valueAt (CombArc.clone h i).1 i = some v ∧
    CombArc.eqHandles (CombArc.clone h i).1 (CombArc.clone h i).2 i = true := by
  obtain ⟨c, hc, hcv⟩ := valueAt_elim hv
  have hilt : i < h.length := (List.getElem?_eq_some.mp hc).1
  have heq : CombArc.clone h i = (h.set i { c with strong := c.strong + 1 }, i) := by
    unfold CombArc.clone ArcSem.clone
    rw [hc]
  have hgeti : (h.set i { c with strong := c.strong + 1 })[i]? =
      some { c with strong := c.strong + 1 } :=
    List.getElem?_set_eq_of_lt _ hilt
  have hval : valueAt (h.set i { c with strong := c.strong + 1 }) i = some v := by
    unfold valueAt; rw [hgeti]; simpa using hcv
  refine ⟨by rw [heq], by rw [heq]; simp, ?_, ?_, ?_, ?_⟩
  · rw [heq, strongAt_some hc, strongAt_some hgeti]
  · rw [heq, weakAt_some hc]
    show weakAt (h.set i { c with strong := c.strong + 1 }) i = c.weak
    rw [weakAt_some hgeti]
  · rw [heq]; exact hval
  · rw [heq]
    show CombArc.eqHandles (h.set i { c with strong := c.strong + 1 }) i i = true
    unfold CombArc.eqHandles
    rw [hval]
    simp

/-- Witness for C4 at a concrete one-cell heap. -/
theorem clone_aliases_same_cell_w :
    (CombArc.clone oneCellHeap 0).2 = 0 ∧
    (CombArc.clone oneCellHeap 0).1.length = oneCellHeap.length ∧
    strongAt (CombArc.clone oneCellHeap 0).1 0 = strongAt oneCellHeap 0 + 1 ∧
    weakAt (CombArc.clone oneCellHeap 0).1 0 = weakAt oneCellHeap 0 ∧
    valueAt (CombArc.clone oneCellHeap 0).1 0 = some true ∧
    CombArc.eqHandles (CombArc.clone oneCellHeap 0).1 (CombArc.clone oneCellHeap 0).2 0 = true :=
  clone_aliases_same_cell oneCellHeap 0 true rfl

/-- C7: equality and ordering on handles are computed from the pointees
alone — deep comparison through the pointer, never pointer identity — in
both handle-to-handle and handle-to-bare-value forms; in particular two
handles over distinct cells holding equal values compare equal. -/
theorem comparisons_delegate_to_pointee [DecidableEq T] [Ord T]
    (h : Heap T) (i j : Nat) (a b : T)
    (ha : valueAt h i = some a) (hb : valueAt h j = some b) :
    CombArc.eqHandles h i j = decide (a = b) ∧
    CombArc.eqValue h i b = decide (a = b) ∧
    CombArc.cmpHandles h i j = some (compare a b) ∧
    CombArc.cmpValue h i b = some (compare a b) ∧
    (a = b → CombArc.eqHandles h i j = true) := by
  refine ⟨?_, ?_, ?_, ?_, ?_⟩
  · unfold CombArc.eqHandles; rw [ha, hb]
  · unfold CombArc.eqValue; rw [ha]
  · unfold CombArc.cmpHandles; rw [ha, hb]
  · unfold CombArc.cmpValue; rw [ha]
  · intro hab
    unfold CombArc.eqHandles; rw [ha, hb]
    simp [hab]

/-- Witness for C7: two distinct cells holding equal values compare
equal (heap built by `clone_unique`, which duplicates into a fresh
cell). -/
theorem comparisons_delegate_to_pointee_w :
    CombArc.eqHandles (CombArc.cloneUnique oneCellHeap 0).1 0 1 = decide (true = true) ∧
    CombArc.eqValue (CombArc.cloneUnique oneCellHeap 0).1 0 true = decide (true = true) ∧
    CombArc.cmpHandles (CombArc.cloneUnique oneCellHeap 0).1 0 1 = some (compare true true) ∧
    CombArc.cmpValue (CombArc.cloneUnique oneCellHeap 0).1 0 true = some (compare true true) ∧
    (true = true → CombArc.eqHandles (CombArc.cloneUnique oneCellHeap 0).1 0 1 = true) :=
  comparisons_delegate_to_pointee (CombArc.cloneUnique oneCellHeap 0).1 0 1 true true rfl rfl

/-- C8: a weak handle upgrades successfully exactly while some strong
handle on its cell exists at upgrade time; and once `try_unwrap`
succeeds (the strong count of the cell reaches 0, whatever the weak
count), every later upgrade attempt on that cell fails, across any
sequence of further operations — none of which can target the dead cell
through a strong handle, since none exists. -/
theorem upgrade_iff_strong_and_dead_is_permanent (h : Heap T) (i : Nat) (v : T) :
    ((ArcSem.upgrade h i).2.isSome = true ↔ 0 < strongAt h i) ∧
    ((CombArc.tryUnwrap h i).2 = Except.ok v →
      strongAt (CombArc.tryUnwrap h i).1 i = 0 ∧
      ∀ ops : List (Nat × HOp T),
        (∀ p ∈ ops, p.1 = i → p.2 = HOp.opUpgrade) →
        (ArcSem.upgrade (runOps (CombArc.tryUnwrap h i).1 ops) i).2 = none) := by
  constructor
  · unfold ArcSem.upgrade
    cases hc : h[i]? with
    | none =>
      have h0 : strongAt h i = 0 := by unfold strongAt; rw [hc]; rfl
      simp [h0]
    | some c =>
      rw [strongAt_some hc]
      by_cases hs : 0 < c.strong <;> simp [hs]
  · intro hok
    unfold CombArc.tryUnwrap ArcSem.tryUnwrap at hok ⊢
    cases hc : h[i]? with
    | none => rw [hc] at hok; simp at hok
    | some c =>
      rw [hc] at hok
      by_cases h1 : c.strong = 1
      · cases hv : c.value with
        | none => simp [h1, hv] at hok
        | some w =>
          have hilt : i < h.length := (List.getElem?_eq_some.mp hc).1
          simp only [h1, if_true, hv]
          have hgeti : (h.set i { c with strong := 0, value := none })[i]? =
              some { c with strong := 0, value := none } :=
            List.getElem?_set_eq_of_lt _ hilt
          have hdead : strongAt (h.set i { c with strong := 0, value := none }) i = 0 := by
            rw [strongAt_some hgeti]
          refine ⟨hdead, ?_⟩
          intro ops hcond
          have hlen : i < (h.set i { c with strong := 0, value := none }).length := by
            simpa using hilt
          have hrun := runOps_dead ops _ i hlen hdead hcond
          rw [upgrade_dead _ i hrun]
      · simp [h1] at hok

/-- Witness for C8: a concrete move-out on a sole owner with one weak
handle, followed by an upgrade attempt and a second upgrade attempt —
all fail. -/
theorem upgrade_iff_strong_and_dead_is_permanent_w :
    ((ArcSem.upgrade soleOwnerOneWeak 0).2.isSome = true ↔ 0 < strongAt soleOwnerOneWeak 0) ∧
    strongAt (CombArc.tryUnwrap soleOwnerOneWeak 0).1 0 = 0 ∧
    (ArcSem.upgrade (runOps (CombArc.tryUnwrap soleOwnerOneWeak 0).1
      [(0, HOp.opUpgrade), (0, HOp.opUpgrade)]) 0).2 = none := by
  have h := upgrade_iff_strong_and_dead_is_permanent soleOwnerOneWeak 0 true
  have h2 := h.2 rfl
  exact ⟨h.1, h2.1, h2.2 [(0, HOp.opUpgrade), (0, HOp.opUpgrade)] (by decide)⟩

/-- C9: the thread-safe tier (`CombArc`) and the single-threaded tier
(`CombRc`) expose the same operation set with identical behaviour: for
every heap, handle and input, each pair of corresponding operations
returns the same result and performs the same count-state transition.
(The only difference in the source is the atomicity of the counter,
invisible to sequential semantics.) -/
theorem tiers_behave_identically [DecidableEq T] [Ord T]
    (h : Heap T) (i j : Nat) (v : T) (f : T → String) :
    CombArc.new h v = CombRc.new h v ∧
    CombArc.fromArc h i = CombRc.fromRc h i ∧
    CombArc.clone h i = CombRc.clone h i ∧
    CombArc.cloneUnique h i = CombRc.cloneUnique h i ∧
    CombArc.derefRead h i = CombRc.derefRead h i ∧
    CombArc.derefMut h i = CombRc.derefMut h i ∧
    CombArc.tryUnwrap h i = CombRc.tryUnwrap h i ∧
    CombArc.makeInner h i = CombRc.makeInner h i ∧
    CombArc.getArc h i = CombRc.getRc h i ∧
    CombArc.eqHandles h i j = CombRc.eqHandles h i j ∧
    CombArc.eqValue h i v = CombRc.eqValue h i v ∧
    CombArc.cmpHandles h i j = CombRc.cmpHandles h i j ∧
    CombArc.cmpValue h i v = CombRc.cmpValue h i v ∧
    CombArc.render f h i = CombRc.render f h i ∧
    CombArc.defaultHandle h v = CombRc.defaultHandle h v :=
  ⟨rfl, rfl, rfl, rfl, rfl, rfl, rfl, rfl, rfl, rfl, rfl, rfl, rfl, rfl, rfl⟩

/-- C10: the derived `Default` constructor (undocumented in the spec)
builds the same handle as `construct(T::default())`: a fresh cell at a
brand-new address holding the default value with `strong = 1`,
`weak = 0`, aliasing no pre-existing handle — in both tiers. -/
theorem defaultHandle_is_new_default (h : Heap T) (d : T) :
    CombArc.defaultHandle h d = CombArc.new h d ∧
    CombRc.defaultHandle h d = CombRc.new h d ∧
    (CombArc.defaultHandle h d).2 = h.length ∧
    valueAt (CombArc.defaultHandle h d).1 (CombArc.defaultHandle h d).2 = some d ∧
    strongAt (CombArc.defaultHandle h d).1 (CombArc.defaultHandle h d).2 = 1 ∧
    weakAt (CombArc.defaultHandle h d).1 (CombArc.defaultHandle h d).2 = 0 ∧
    (∀ k, k < h.length → (CombArc.defaultHandle h d).2 ≠ k) := by
  have hget : ((CombArc.defaultHandle h d).1)[h.length]? = some ⟨some d, 1, 0⟩ :=
    List.getElem?_concat_length _ _
  refine ⟨rfl, rfl, rfl, ?_, ?_, ?_, ?_⟩
  · show valueAt (CombArc.defaultHandle h d).1 h.length = some d
    unfold valueAt; rw [hget]; rfl
  · show strongAt (CombArc.defaultHandle h d).1 h.length = 1
    exact strongAt_some hget
  · show weakAt (CombArc.defaultHandle h d).1 h.length = 0
    exact weakAt_some hget
  · intro k hk
    exact Nat.ne_of_gt hk

/-- Witness for C10 at a concrete non-empty heap: the default handle's
cell is fresh (address 1, distinct from the existing cell 0). -/
theorem defaultHandle_is_new_default_w :
    CombArc.defaultHandle oneCellHeap false = CombArc.new oneCellHeap false ∧
    CombRc.defaultHandle oneCellHeap false = CombRc.new oneCellHeap false ∧
    (CombArc.defaultHandle oneCellHeap false).2 = oneCellHeap.length ∧
    valueAt (CombArc.defaultHandle oneCellHeap false).1 (CombArc.defaultHandle oneCellHeap false).2 = some false ∧
    strongAt (CombArc.defaultHandle oneCellHeap false).1 (CombArc.defaultHandle oneCellHeap false).2 = 1 ∧
    weakAt (CombArc.defaultHandle oneCellHeap false).1 (CombArc.defaultHandle oneCellHeap false).2 = 0 ∧
    (∀ k, k < oneCellHeap.length → (CombArc.defaultHandle oneCellHeap false).2 ≠ k) :=
  defaultHandle_is_new_default oneCellHeap false
